import Mathlib

/-!
Shallow embedding of the Tetris engine core (board, piece controller,
sequencer, score tracker, game engine) translated from the JavaScript
sources: `boardManager.js`, `tetrominoes.js`, `tetrominoUtils.js`,
`tetrominoManager.js`, `scoreManager.js`, `gameEngine.js`.

Conventions:
 - JavaScript numbers used as integers become `Int` (coordinates, timers)
   or `Nat` (array indices); the fall-speed computation, which multiplies
   by `0.8^(level-1)`, is embedded over `ℚ`.
 - `null`-able values become `Option`.
 - The module-global piece bag plus `Math.random()` is embedded as an
   explicit bag (`List TetType`) together with a stream of random draws
   (`List Nat`); `Math.floor(Math.random() * (i + 1))` becomes `r % (i+1)`
   for the next stream element `r`, which ranges over the same set.
 - `performance.now()` is passed in as an explicit `now : Int`; the
   (at most microseconds apart) repeated reads inside one call are
   identified.
-/

namespace Tetris

/-- The seven tetromino kinds (`TETROMINO_TYPES` in `tetrominoes.js`). -/
inductive TetType where
  | I | O | T | S | Z | J | L
  deriving DecidableEq, Repr

/-- `ALL_TETROMINO_TYPES = Object.values(TETROMINO_TYPES)`, in source order. -/
def allTetrominoTypes : List TetType :=
  [.I, .O, .T, .S, .Z, .J, .L]

/-- `TETROMINO_COLORS` from `tetrominoes.js`. -/
def tetrominoColor : TetType → String
  | .I => "#00F5FF"
  | .O => "#FFD700"
  | .T => "#9932CC"
  | .S => "#32CD32"
  | .Z => "#FF4500"
  | .J => "#1E90FF"
  | .L => "#FF8C00"

/-- `TETROMINO_SHAPES` from `tetrominoes.js`: for each kind, the four
rotation states, each a 4×4 grid of 0/1 entries. -/
def tetrominoShapes : TetType → List (List (List Nat))
  | .I =>
    [[[0,0,0,0],[1,1,1,1],[0,0,0,0],[0,0,0,0]],
     [[0,0,1,0],[0,0,1,0],[0,0,1,0],[0,0,1,0]],
     [[0,0,0,0],[0,0,0,0],[1,1,1,1],[0,0,0,0]],
     [[0,1,0,0],[0,1,0,0],[0,1,0,0],[0,1,0,0]]]
  | .O =>
    [[[0,0,0,0],[0,1,1,0],[0,1,1,0],[0,0,0,0]],
     [[0,0,0,0],[0,1,1,0],[0,1,1,0],[0,0,0,0]],
     [[0,0,0,0],[0,1,1,0],[0,1,1,0],[0,0,0,0]],
     [[0,0,0,0],[0,1,1,0],[0,1,1,0],[0,0,0,0]]]
  | .T =>
    [[[0,0,0,0],[0,1,0,0],[1,1,1,0],[0,0,0,0]],
     [[0,0,0,0],[0,1,0,0],[0,1,1,0],[0,1,0,0]],
     [[0,0,0,0],[0,0,0,0],[1,1,1,0],[0,1,0,0]],
     [[0,0,0,0],[0,1,0,0],[1,1,0,0],[0,1,0,0]]]
  | .S =>
    [[[0,0,0,0],[0,1,1,0],[1,1,0,0],[0,0,0,0]],
     [[0,0,0,0],[0,1,0,0],[0,1,1,0],[0,0,1,0]],
     [[0,0,0,0],[0,0,0,0],[0,1,1,0],[1,1,0,0]],
     [[0,0,0,0],[1,0,0,0],[1,1,0,0],[0,1,0,0]]]
  | .Z =>
    [[[0,0,0,0],[1,1,0,0],[0,1,1,0],[0,0,0,0]],
     [[0,0,0,0],[0,0,1,0],[0,1,1,0],[0,1,0,0]],
     [[0,0,0,0],[0,0,0,0],[1,1,0,0],[0,1,1,0]],
     [[0,0,0,0],[0,1,0,0],[1,1,0,0],[1,0,0,0]]]
  | .J =>
    [[[0,0,0,0],[1,0,0,0],[1,1,1,0],[0,0,0,0]],
     [[0,0,0,0],[0,1,1,0],[0,1,0,0],[0,1,0,0]],
     [[0,0,0,0],[0,0,0,0],[1,1,1,0],[0,0,1,0]],
     [[0,0,0,0],[0,1,0,0],[0,1,0,0],[1,1,0,0]]]
  | .L =>
    [[[0,0,0,0],[0,0,1,0],[1,1,1,0],[0,0,0,0]],
     [[0,0,0,0],[0,1,0,0],[0,1,0,0],[0,1,1,0]],
     [[0,0,0,0],[0,0,0,0],[1,1,1,0],[1,0,0,0]],
     [[0,0,0,0],[1,1,0,0],[0,1,0,0],[0,1,0,0]]]

/-- A tetromino object as produced by `createTetromino` in
`tetrominoUtils.js`: `{type, x, y, rotation, color, shape}`. -/
structure Piece where
  type : TetType
  x : Int
  y : Int
  rotation : Nat
  color : String
  shape : List (List Nat)
  deriving DecidableEq, Repr

/-- `createTetromino(type, x, y, rotation)` for an in-range rotation
(out-of-range rotations throw in the source and never occur in the
embedded call sites, which always pass 0). -/
def createTetromino (t : TetType) (x y : Int) (rotation : Nat) : Piece :=
  { type := t, x := x, y := y, rotation := rotation,
    color := tetrominoColor t,
    shape := (tetrominoShapes t).getD rotation [] }

/-- `rotateTetromino`: rotation state +1 mod 4, shape re-read from the table. -/
def rotateTetromino (p : Piece) : Piece :=
  let newRotation := (p.rotation + 1) % 4
  { p with rotation := newRotation,
           shape := (tetrominoShapes p.type).getD newRotation [] }

/-- `moveTetromino`: pure translation. -/
def moveTetromino (p : Piece) (dx dy : Int) : Piece :=
  { p with x := p.x + dx, y := p.y + dy }

/-- `cloneTetromino`: deep copy (identity in a pure embedding). -/
def cloneTetromino (p : Piece) : Piece := p

/-- `getTetrominoBlocks`: absolute coordinates of the shape's 1-cells. -/
def getTetrominoBlocks (p : Piece) : List (Int × Int) :=
  (List.range p.shape.length).flatMap fun row =>
    (List.range ((p.shape.getD row []).length)).filterMap fun col =>
      if (p.shape.getD row []).getD col 0 = 1 then
        some (p.x + col, p.y + row)
      else
        none

/-- An occupied board cell `{type, color}` (`placePiece` in
`boardManager.js`). -/
structure Cell where
  type : TetType
  color : String
  deriving DecidableEq, Repr

/-- A `BoardManager`'s state: dimensions plus the grid of cells
(`null` = empty). -/
structure Board where
  width : Nat
  height : Nat
  grid : List (List (Option Cell))
  deriving DecidableEq, Repr

/-- One empty row of a board. -/
def emptyRow (width : Nat) : List (Option Cell) :=
  List.replicate width none

/-- `initializeBoard`: `height` empty rows of `width` cells. -/
def initializeBoard (width height : Nat) : List (List (Option Cell)) :=
  List.replicate height (emptyRow width)

/-- `new BoardManager(width, height)`. -/
def mkBoard (width height : Nat) : Board :=
  { width := width, height := height, grid := initializeBoard width height }

/-- Read the cell at column `x`, row `y` (the JS `this.board[y][x]`,
defaulting to empty off the nesting). -/
def Board.cellAt (b : Board) (x y : Int) : Option Cell :=
  ((b.grid.getD y.toNat []).getD x.toNat none)

/-- `isWithinBounds(x, y)`. -/
def Board.isWithinBounds (b : Board) (x y : Int) : Bool :=
  0 ≤ x && x < (b.width : Int) && 0 ≤ y && y < (b.height : Int)

/-- `isEmpty(x, y)`: out of bounds is not empty. -/
def Board.isEmpty (b : Board) (x y : Int) : Bool :=
  if !b.isWithinBounds x y then
    false
  else
    (b.cellAt x y).isNone

/-- `isOccupied(x, y)`: out of bounds is considered occupied. -/
def Board.isOccupied (b : Board) (x y : Int) : Bool :=
  if !b.isWithinBounds x y then
    true
  else
    !(b.cellAt x y).isNone

/-- `isValidPosition(tetromino)`: every block in bounds and not occupied. -/
def Board.isValidPosition (b : Board) (p : Piece) : Bool :=
  (getTetrominoBlocks p).all fun blk =>
    b.isWithinBounds blk.1 blk.2 && !b.isOccupied blk.1 blk.2

/-- `canMove(tetromino, dx, dy)`. -/
def Board.canMove (b : Board) (p : Piece) (dx dy : Int) : Bool :=
  b.isValidPosition (moveTetromino p dx dy)

/-- `canRotate(rotatedTetromino)`. -/
def Board.canRotate (b : Board) (p : Piece) : Bool :=
  b.isValidPosition p

/-- Write one block into the grid (the assignment
`this.board[block.y][block.x] = {type, color}`). -/
def writeCell (grid : List (List (Option Cell))) (x y : Int) (c : Cell) :
    List (List (Option Cell)) :=
  grid.set y.toNat ((grid.getD y.toNat []).set x.toNat (some c))

/-- `placePiece(tetromino)`: validate, then commit all blocks. -/
def Board.placePiece (b : Board) (p : Piece) : Bool × Board :=
  if !b.isValidPosition p then
    (false, b)
  else
    let g := (getTetrominoBlocks p).foldl
      (fun g blk => writeCell g blk.1 blk.2 ⟨p.type, p.color⟩) b.grid
    (true, { b with grid := g })

/-- `isRowComplete(row)`: in-range and no `null` cell in any column. -/
def Board.isRowComplete (b : Board) (row : Nat) : Bool :=
  if row ≥ b.height then
    false
  else
    (List.range b.width).all fun col =>
      !((b.grid.getD row []).getD col none).isNone

/-- `findCompleteRows()`. -/
def Board.findCompleteRows (b : Board) : List Nat :=
  (List.range b.height).filter b.isRowComplete

/-- `clearLines()`: batch-remove all complete rows, prepend that many
empty rows, report count and original indices. -/
def Board.clearLines (b : Board) : Board × Nat × List Nat :=
  let completeRows := b.findCompleteRows
  if completeRows.isEmpty then
    (b, 0, [])
  else
    let newBoard :=
      List.replicate completeRows.length (emptyRow b.width) ++
        (List.range b.height).filterMap fun row =>
          if completeRows.contains row then
            none
          else
            some (b.grid.getD row [])
    ({ b with grid := newBoard }, completeRows.length, completeRows)

/-- `isGameOver()`: any occupied cell in the top min(2, height) rows. -/
def Board.isGameOver (b : Board) : Bool :=
  (List.range (min 2 b.height)).any fun row =>
    (List.range b.width).any fun col =>
      !((b.grid.getD row []).getD col none).isNone

/-- The swap `[bag[i], bag[j]] = [bag[j], bag[i]]` on a list. -/
def swapList (l : List TetType) (i j : Nat) : List TetType :=
  (l.set i (l.getD j .I)).set j (l.getD i .I)

/-- The Fisher–Yates loop of `generatePieceBag`, counting the index `i`
down; `rs` supplies one random draw per iteration, `r % (i + 1)` standing
for `Math.floor(Math.random() * (i + 1))`. -/
def fisherYatesAux : List TetType → Nat → List Nat → List TetType
  | l, 0, _ => l
  | l, i + 1, rs => fisherYatesAux (swapList l (i + 1) (rs.headD 0 % (i + 2))) i rs.tail

/-- `generatePieceBag()`: a shuffled copy of all 7 kinds. -/
def generatePieceBag (rs : List Nat) : List TetType :=
  fisherYatesAux allTetrominoTypes (allTetrominoTypes.length - 1) rs

/-- State of the module-global sequencer of `tetrominoUtils.js`: the
pending bag plus the unconsumed random stream. -/
structure BagState where
  bag : List TetType
  rs : List Nat
  deriving DecidableEq, Repr

/-- `getRandomTetrominoType()`: refill the bag from a fresh shuffle when
empty, then pop the LAST element (`bag.pop()`). One refill consumes 6
random draws. -/
def getRandomTetrominoType (s : BagState) : TetType × BagState :=
  if s.bag.isEmpty then
    let nb := generatePieceBag s.rs
    (nb.getLastD .I, ⟨nb.dropLast, s.rs.drop 6⟩)
  else
    (s.bag.getLastD .I, ⟨s.bag.dropLast, s.rs⟩)

/-- `resetPieceBag()`: clears the pending bag. -/
def resetPieceBag (s : BagState) : BagState :=
  { s with bag := [] }

/-- `n` successive draws from the sequencer, in order. -/
def drawTypes : Nat → BagState → List TetType × BagState
  | 0, s => ([], s)
  | n + 1, s =>
    let (t, s') := getRandomTetrominoType s
    let (ts, s'') := drawTypes n s'
    (t :: ts, s'')

/-- `createRandomTetromino(x = 0, y = 0)`. -/
def createRandomTetromino (s : BagState) : Piece × BagState :=
  let (t, s') := getRandomTetrominoType s
  (createTetromino t 0 0 0, s')

/-- `TetrominoManager` state: the board it validates against plus the
current and next pieces (spawn anchor is derived from the board width). -/
structure TMState where
  board : Board
  current : Option Piece
  next : Option Piece
  deriving DecidableEq, Repr

/-- `this.spawnX = Math.floor(boardManager.width / 2) - 2`. -/
def TMState.spawnX (tm : TMState) : Int :=
  (tm.board.width / 2 : Nat) - 2

/-- `this.spawnY = 0`. -/
def TMState.spawnY (_tm : TMState) : Int := 0

/-- `getWallKickOffsets(pieceType, fromRotation, toRotation)`: the SRS
offset list for the transition, `[]` for undefined transitions. -/
def getWallKickOffsets (t : TetType) (fromRot toRot : Nat) : List (Int × Int) :=
  if t = .I then
    match fromRot, toRot with
    | 0, 1 => [(-2, 0), (1, 0), (-2, 1), (1, -2)]
    | 1, 2 => [(-1, 0), (2, 0), (-1, -2), (2, 1)]
    | 2, 3 => [(2, 0), (-1, 0), (2, -1), (-1, 2)]
    | 3, 0 => [(1, 0), (-2, 0), (1, 2), (-2, -1)]
    | _, _ => []
  else
    match fromRot, toRot with
    | 0, 1 => [(-1, 0), (-1, -1), (0, 2), (-1, 2)]
    | 1, 2 => [(1, 0), (1, 1), (0, -2), (1, -2)]
    | 2, 3 => [(1, 0), (1, -1), (0, 2), (1, 2)]
    | 3, 0 => [(-1, 0), (-1, 1), (0, -2), (-1, -2)]
    | _, _ => []

/-- `spawnPiece()`: promote the next piece (or draw a fresh one when no
next piece exists), position it at the spawn anchor, draw a new next
piece unconditionally, then validate against the board. -/
def TMState.spawnPiece (tm : TMState) (s : BagState) :
    Option Piece × TMState × BagState :=
  let (cur0, s1) :=
    match tm.next with
    | some np => (cloneTetromino np, s)
    | none => createRandomTetromino s
  let cur := { cur0 with x := tm.spawnX, y := tm.spawnY }
  let (nxt, s2) := createRandomTetromino s1
  if !tm.board.isValidPosition cur then
    (none, { tm with current := none, next := some nxt }, s2)
  else
    (some cur, { tm with current := some cur, next := some nxt }, s2)

/-- `moveDown()`. -/
def TMState.moveDown (tm : TMState) : Bool × TMState :=
  match tm.current with
  | none => (false, tm)
  | some p =>
    if tm.board.canMove p 0 1 then
      (true, { tm with current := some (moveTetromino p 0 1) })
    else
      (false, tm)

/-- `rotatePiece()`: naive rotation first, then the wall-kick offsets in
order; commit the first valid candidate, else fail without change. -/
def TMState.rotatePiece (tm : TMState) : Bool × TMState :=
  match tm.current with
  | none => (false, tm)
  | some p =>
    let rotatedPiece := rotateTetromino p
    if tm.board.canRotate rotatedPiece then
      (true, { tm with current := some rotatedPiece })
    else
      let offsets := getWallKickOffsets p.type p.rotation rotatedPiece.rotation
      match offsets.find? fun off =>
          tm.board.canRotate (moveTetromino rotatedPiece off.1 off.2) with
      | some off =>
        (true, { tm with current := some (moveTetromino rotatedPiece off.1 off.2) })
      | none => (false, tm)

/-- `hasActivePiece()`. -/
def TMState.hasActivePiece (tm : TMState) : Bool :=
  tm.current.isSome

/-- `lockPiece()`: commit the current piece via `placePiece`; on success
the current piece is cleared. -/
def TMState.lockPiece (tm : TMState) : Bool × TMState :=
  match tm.current with
  | none => (false, tm)
  | some p =>
    let (success, b') := tm.board.placePiece p
    if success then
      (true, { tm with board := b', current := none })
    else
      (false, { tm with board := b' })

/-- `TetrominoManager.reset()`. -/
def TMState.reset (tm : TMState) : TMState :=
  { tm with current := none, next := none }

/-- A JS `config.field || default` step for a numeric field: an absent
field or a falsy (zero) value yields the default. -/
def jsOrDefault (v : Option Int) (d : Int) : Int :=
  match v with
  | none => d
  | some x => if x = 0 then d else x

/-- The trailing `...config` spread over an already-built record: a field
present in the input record overrides, an absent one keeps the base. -/
def jsSpreadField (v : Option Int) (base : Int) : Int :=
  match v with
  | some x => x
  | none => base

/-- A configuration record passed to `new ScoreManager(config)`; `none`
is an omitted field. -/
structure SMConfigInput where
  linesPerLevel : Option Int := none
  initialLevel : Option Int := none
  deriving DecidableEq, Repr

/-- The resolved `this.config` of a `ScoreManager`. -/
structure SMConfig where
  linesPerLevel : Int
  initialLevel : Int
  deriving DecidableEq, Repr

/-- `this.config = { linesPerLevel: config.linesPerLevel || 10,
initialLevel: config.initialLevel || 1, ...config }` — the `||`-defaulted
record, then the spread of the raw input over it. -/
def mkSMConfig (input : SMConfigInput) : SMConfig :=
  let defaulted : SMConfig :=
    { linesPerLevel := jsOrDefault input.linesPerLevel 10,
      initialLevel := jsOrDefault input.initialLevel 1 }
  { linesPerLevel := jsSpreadField input.linesPerLevel defaulted.linesPerLevel,
    initialLevel := jsSpreadField input.initialLevel defaulted.initialLevel }

/-- Per-size line-clear counters (`linesClearedByType`). -/
structure LineStats where
  single : Int
  double : Int
  triple : Int
  tetris : Int
  deriving DecidableEq, Repr

/-- `ScoreManager` state. -/
structure SMState where
  config : SMConfig
  score : Int
  level : Int
  linesCleared : Int
  totalPiecesPlaced : Int
  linesClearedByType : LineStats
  deriving DecidableEq, Repr

/-- `ScoreManager.reset()`. -/
def SMState.reset (sm : SMState) : SMState :=
  { sm with score := 0, level := sm.config.initialLevel, linesCleared := 0,
            totalPiecesPlaced := 0,
            linesClearedByType := ⟨0, 0, 0, 0⟩ }

/-- `new ScoreManager(config)`: resolve the config, then `reset()`. -/
def mkScoreManager (input : SMConfigInput) : SMState :=
  SMState.reset
    { config := mkSMConfig input, score := 0, level := 0, linesCleared := 0,
      totalPiecesPlaced := 0, linesClearedByType := ⟨0, 0, 0, 0⟩ }

/-- `getBaseScore(linesCleared)`. -/
def getBaseScore (n : Int) : Int :=
  match n with
  | 1 => 100
  | 2 => 300
  | 3 => 500
  | 4 => 800
  | _ => 0

/-- `updateLineClearingStats(linesCleared)`. -/
def SMState.updateLineClearingStats (sm : SMState) (n : Int) : SMState :=
  match n with
  | 1 => { sm with linesClearedByType :=
      { sm.linesClearedByType with single := sm.linesClearedByType.single + 1 } }
  | 2 => { sm with linesClearedByType :=
      { sm.linesClearedByType with double := sm.linesClearedByType.double + 1 } }
  | 3 => { sm with linesClearedByType :=
      { sm.linesClearedByType with triple := sm.linesClearedByType.triple + 1 } }
  | 4 => { sm with linesClearedByType :=
      { sm.linesClearedByType with tetris := sm.linesClearedByType.tetris + 1 } }
  | _ => sm

/-- `updateLevel()`: `Math.floor(linesCleared / linesPerLevel) +
initialLevel` (floor division on integers is `Int.fdiv`). -/
def SMState.updateLevel (sm : SMState) : SMState :=
  { sm with level := Int.fdiv sm.linesCleared sm.config.linesPerLevel +
      sm.config.initialLevel }

/-- `addScore(linesCleared)` over a JS number modelled as `ℚ`: integers
1–4 award `baseScore × level` and bump the counters, anything else is a
no-op returning 0. -/
def SMState.addScore (sm : SMState) (n : ℚ) : Int × SMState :=
  if n < 1 ∨ 4 < n ∨ n.den ≠ 1 then
    (0, sm)
  else
    let k := n.num
    let pointsAwarded := getBaseScore k * sm.level
    let sm1 := { sm with score := sm.score + pointsAwarded,
                         linesCleared := sm.linesCleared + k }
    let sm2 := sm1.updateLineClearingStats k
    (pointsAwarded, sm2.updateLevel)

/-- `addPiecePlacement()`. -/
def SMState.addPiecePlacement (sm : SMState) : SMState :=
  { sm with totalPiecesPlaced := sm.totalPiecesPlaced + 1 }

/-- `Math.round` on a rational: round half toward positive infinity. -/
def jsRound (q : ℚ) : Int :=
  ⌊q + 1 / 2⌋

/-- `calculateFallSpeed(baseFallSpeed)`:
`Math.max(Math.round(baseFallSpeed * 0.8^(level-1)), 50)`. -/
def SMState.calculateFallSpeed (sm : SMState) (baseFallSpeed : ℚ) : Int :=
  let speedMultiplier : ℚ := (4 / 5) ^ (sm.level - 1).toNat
  max (jsRound (baseFallSpeed * speedMultiplier)) 50

/-- A configuration record passed to `new GameEngine(config)`; `none` is
an omitted field. -/
structure GEConfigInput where
  boardWidth : Option Int := none
  boardHeight : Option Int := none
  initialFallSpeed : Option Int := none
  softDropSpeed : Option Int := none
  lockDelay : Option Int := none
  deriving DecidableEq, Repr

/-- The resolved `this.config` of a `GameEngine`. -/
structure GEConfig where
  boardWidth : Int
  boardHeight : Int
  initialFallSpeed : Int
  softDropSpeed : Int
  lockDelay : Int
  deriving DecidableEq, Repr

/-- `this.config = { boardWidth: config.boardWidth || 10, ...,
lockDelay: config.lockDelay || 500, ...config }` — each field first
`||`-defaulted, then overridden by the trailing spread of the raw input. -/
def mkGEConfig (input : GEConfigInput) : GEConfig :=
  let defaulted : GEConfig :=
    { boardWidth := jsOrDefault input.boardWidth 10,
      boardHeight := jsOrDefault input.boardHeight 20,
      initialFallSpeed := jsOrDefault input.initialFallSpeed 1000,
      softDropSpeed := jsOrDefault input.softDropSpeed 50,
      lockDelay := jsOrDefault input.lockDelay 500 }
  { boardWidth := jsSpreadField input.boardWidth defaulted.boardWidth,
    boardHeight := jsSpreadField input.boardHeight defaulted.boardHeight,
    initialFallSpeed := jsSpreadField input.initialFallSpeed defaulted.initialFallSpeed,
    softDropSpeed := jsSpreadField input.softDropSpeed defaulted.softDropSpeed,
    lockDelay := jsSpreadField input.lockDelay defaulted.lockDelay }

/-- `gameState.status` of the engine. -/
inductive GStatus where
  | stopped | playing | paused | gameOver
  deriving DecidableEq, Repr

/-- `GameEngine` state: components, status, and all timing bookkeeping.
The sequencer state `seq` stands for the module-global piece bag the
`TetrominoManager` draws from. -/
structure EngineState where
  config : GEConfig
  tm : TMState
  sm : SMState
  status : GStatus
  fallSpeed : Int
  lastFallTime : Int
  lastUpdateTime : Int
  lockTimer : Int
  isLockDelayActive : Bool
  isSoftDropping : Bool
  pauseTime : Int
  isRunning : Bool
  seq : BagState
  deriving DecidableEq, Repr

/-- `gameOver()`: idempotent transition to `gameOver`, clearing the
transient lock-delay and soft-drop state. -/
def EngineState.gameOverOp (st : EngineState) : EngineState :=
  if st.status = .gameOver then
    st
  else
    { st with status := .gameOver, isRunning := false,
              isLockDelayActive := false, lockTimer := 0,
              isSoftDropping := false }

/-- `checkGameOverConditions()`: spawn-zone occupancy, or an active piece
whose position is invalid. -/
def EngineState.checkGameOverConditions (st : EngineState) : Bool :=
  if st.tm.board.isGameOver then
    true
  else
    match st.tm.current with
    | some p => !st.tm.board.isValidPosition p
    | none => false

/-- `handleLinesCleared(linesCleared, clearedRows)`: feed the score
tracker, then recompute the fall speed from the (possibly new) level. -/
def EngineState.handleLinesCleared (st : EngineState) (linesCleared : Nat) :
    EngineState :=
  let (_, sm') := st.sm.addScore (linesCleared : ℚ)
  { st with sm := sm',
            fallSpeed := sm'.calculateFallSpeed (st.config.initialFallSpeed : ℚ) }

/-- `lockCurrentPiece()`: lock, count the placement, clear lines, score
them, reset the lock delay, and re-check game over. -/
def EngineState.lockCurrentPiece (st : EngineState) : EngineState :=
  if !st.tm.hasActivePiece then
    st
  else
    let (_, tm') := st.tm.lockPiece
    let sm1 := st.sm.addPiecePlacement
    let (b', count, _rows) := tm'.board.clearLines
    let st1 := { st with tm := { tm' with board := b' }, sm := sm1 }
    let st2 := if count > 0 then st1.handleLinesCleared count else st1
    let st3 := { st2 with isLockDelayActive := false, lockTimer := 0 }
    if st3.checkGameOverConditions then st3.gameOverOp else st3

/-- `tryMovePieceDown()`: a successful fall resets the lock delay, a
blocked fall arms it. -/
def EngineState.tryMovePieceDown (st : EngineState) : EngineState :=
  if !st.tm.hasActivePiece then
    st
  else
    let (moved, tm') := st.tm.moveDown
    if moved then
      { st with tm := tm', isLockDelayActive := false, lockTimer := 0 }
    else if !st.isLockDelayActive then
      { st with isLockDelayActive := true, lockTimer := 0 }
    else
      st

/-- `updateFalling(deltaTime)`: fall once the soft-drop or level interval
has elapsed since `lastFallTime`, then restamp `lastFallTime`. -/
def EngineState.updateFalling (st : EngineState) (now : Int) : EngineState :=
  let currentFallSpeed :=
    if st.isSoftDropping then st.config.softDropSpeed else st.fallSpeed
  if now - st.lastFallTime ≥ currentFallSpeed then
    { st.tryMovePieceDown with lastFallTime := now }
  else
    st

/-- `updateLockDelay(deltaTime)`: accumulate while armed, lock at the
configured delay. -/
def EngineState.updateLockDelay (st : EngineState) (deltaTime : Int) :
    EngineState :=
  if st.isLockDelayActive && st.status = .playing then
    let st1 := { st with lockTimer := st.lockTimer + deltaTime }
    if st1.lockTimer ≥ st1.config.lockDelay then
      st1.lockCurrentPiece
    else
      st1
  else
    st

/-- `update(deltaTime)`: no-op unless playing; spawn-check (with its two
game-over exits), then falling, then lock delay. -/
def EngineState.update (st : EngineState) (deltaTime now : Int) : EngineState :=
  if st.status ≠ .playing then
    st
  else if !st.tm.hasActivePiece then
    let (spawnResult, tm', seq') := st.tm.spawnPiece st.seq
    let st1 := { st with tm := tm', seq := seq' }
    match spawnResult with
    | none => st1.gameOverOp
    | some _ =>
      if st1.checkGameOverConditions then
        st1.gameOverOp
      else
        let st2 := { st1 with isLockDelayActive := false, lockTimer := 0 }
        (st2.updateFalling now).updateLockDelay deltaTime
  else
    (st.updateFalling now).updateLockDelay deltaTime

/-- `pause()`: only from `playing`; record the pause timestamp. -/
def EngineState.pause (st : EngineState) (now : Int) : EngineState :=
  if st.status = .playing then
    { st with status := .paused, pauseTime := now }
  else
    st

/-- `resume()`: only from `paused`; shift the fall-timer reference
forward by the pause duration. -/
def EngineState.resume (st : EngineState) (now : Int) : EngineState :=
  if st.status = .paused then
    { st with status := .playing,
              lastUpdateTime := now,
              lastFallTime := st.lastFallTime + (now - st.pauseTime) }
  else
    st

/-- The claimed fall-speed formula, written from the spec's words
(`max(minimumSpeedMs, baseFallSpeed × 0.8^(level-1))`, default minimum
50 ms, no rounding) for comparison with the source's computation. -/
def fallSpeedSpecClaim (level : Int) (base : ℚ) : ℚ :=
  max 50 (base * (4 / 5) ^ (level - 1).toNat)

/-- A `ScoreManager` freshly constructed with no configuration. -/
def smDemo : SMState :=
  mkScoreManager {}

/-- `smDemo` after reaching level 5. -/
def smLevel5 : SMState :=
  { smDemo with level := 5 }

/-- A concrete engine in the `playing` status, used to instantiate
hypotheses of the engine theorems. -/
def engineDemo : EngineState :=
  { config := ⟨10, 20, 1000, 50, 500⟩,
    tm := { board := mkBoard 10 20,
            current := some (createTetromino .T 3 0 0),
            next := some (createTetromino .I 0 0 0) },
    sm := smDemo,
    status := .playing, fallSpeed := 1000, lastFallTime := 100,
    lastUpdateTime := 100, lockTimer := 0, isLockDelayActive := false,
    isSoftDropping := false, pauseTime := 0, isRunning := true,
    seq := ⟨[], []⟩ }

lemma updateLineClearingStats_score (sm : SMState) (k : Int) :
    (sm.updateLineClearingStats k).score = sm.score := by
  unfold SMState.updateLineClearingStats
  split <;> rfl

lemma updateLineClearingStats_linesCleared (sm : SMState) (k : Int) :
    (sm.updateLineClearingStats k).linesCleared = sm.linesCleared := by
  unfold SMState.updateLineClearingStats
  split <;> rfl

lemma updateLineClearingStats_level (sm : SMState) (k : Int) :
    (sm.updateLineClearingStats k).level = sm.level := by
  unfold SMState.updateLineClearingStats
  split <;> rfl

lemma updateLineClearingStats_config (sm : SMState) (k : Int) :
    (sm.updateLineClearingStats k).config = sm.config := by
  unfold SMState.updateLineClearingStats
  split <;> rfl

/-- C9: `addScore(n)` with integer `n` in {1,2,3,4} awards
`baseScore[n] × currentLevel` points with `baseScore = {1:100, 2:300,
3:500, 4:800}`, adds `n` to `linesCleared`, and returns the award; any
other number (zero, negative, above 4, or non-integer) leaves the whole
state unchanged and returns 0. -/
theorem addScore_valid_and_invalid (sm : SMState) (n : ℚ) :
    (∀ k : Int, n = (k : ℚ) → 1 ≤ k → k ≤ 4 →
      (sm.addScore n).1 = getBaseScore k * sm.level ∧
      (sm.addScore n).2.score = sm.score + getBaseScore k * sm.level ∧
      (sm.addScore n).2.linesCleared = sm.linesCleared + k) ∧
    getBaseScore 1 = 100 ∧ getBaseScore 2 = 300 ∧ getBaseScore 3 = 500 ∧
    getBaseScore 4 = 800 ∧
    ((n < 1 ∨ 4 < n ∨ n.den ≠ 1) →
      (sm.addScore n).1 = 0 ∧ (sm.addScore n).2 = sm) := by
  refine ⟨?_, rfl, rfl, rfl, rfl, ?_⟩
  · intro k hk h1 h4
    subst hk
    have hguard : ¬(((k : ℚ)) < 1 ∨ 4 < ((k : ℚ)) ∨ ((k : ℚ)).den ≠ 1) := by
      push_neg
      refine ⟨?_, ?_, Rat.den_intCast k⟩
      · exact_mod_cast h1
      · exact_mod_cast h4
    unfold SMState.addScore
    rw [if_neg hguard]
    rw [Rat.num_intCast]
    refine ⟨rfl, ?_, ?_⟩
    · simp [SMState.updateLevel, updateLineClearingStats_score]
    · simp [SMState.updateLevel, updateLineClearingStats_linesCleared]
  · intro h
    unfold SMState.addScore
    rw [if_pos h]
    exact ⟨rfl, rfl⟩

/-- Witness for C9 at concrete inputs: a double at level 1 awards 300
points, and the out-of-range input 5 is a no-op. -/
theorem addScore_valid_and_invalid_witness :
    (smDemo.addScore 2).1 = 300 ∧ (smDemo.addScore 5).2 = smDemo := by
  constructor
  · have h := (addScore_valid_and_invalid smDemo 2).1 2 (by norm_num)
      (by decide) (by decide)
    rw [h.1]
    decide
  · exact ((addScore_valid_and_invalid smDemo 5).2.2.2.2.2
      (by right; left; norm_num)).2

/-- C10: out-of-bounds coordinates are uniformly occupied: `isOccupied`
is true and `isEmpty` is false there, and any piece one of whose cells
falls outside the grid fails `isValidPosition`. -/
theorem out_of_bounds_is_occupied (b : Board) (x y : Int)
    (h : b.isWithinBounds x y = false) :
    b.isOccupied x y = true ∧ b.isEmpty x y = false ∧
    ∀ p : Piece, (x, y) ∈ getTetrominoBlocks p →
      b.isValidPosition p = false := by
  refine ⟨?_, ?_, ?_⟩
  · unfold Board.isOccupied
    rw [h]
    rfl
  · unfold Board.isEmpty
    rw [h]
    rfl
  · intro p hp
    unfold Board.isValidPosition
    rw [List.all_eq_false]
    refine ⟨(x, y), hp, ?_⟩
    simp [h]

/-- Witness for C10: on a default 10×20 board the coordinate (-1, 0) is
out of bounds, hence occupied and not empty, and an I-piece covering it
is not a valid position. -/
theorem out_of_bounds_is_occupied_witness :
    (mkBoard 10 20).isOccupied (-1) 0 = true ∧
    (mkBoard 10 20).isEmpty (-1) 0 = false ∧
    (mkBoard 10 20).isValidPosition (createTetromino .I (-2) (-1) 0) = false := by
  have h := out_of_bounds_is_occupied (mkBoard 10 20) (-1) 0 (by decide)
  exact ⟨h.1, h.2.1, h.2.2 (createTetromino .I (-2) (-1) 0) (by decide)⟩

/-- C1 as stated is false: a present-but-invalid configuration value
survives because the trailing `...config` spread re-applies the raw
input over the `||`-defaulted record. A zero board width (invalid)
yields 0, not the default 10; likewise zero lines-per-level in the
`ScoreManager`. -/
theorem config_invalid_not_defaulted :
    (mkGEConfig { boardWidth := some 0 }).boardWidth = 0 ∧
    (mkSMConfig { linesPerLevel := some 0 }).linesPerLevel = 0 ∧
    (0 : Int) ≠ 10 := by
  decide

/-- C1 amended: an omitted configuration field is silently replaced by
its default (10, 20, 1000 ms, 50 ms, 500 ms, 10, 1) with no error, but a
field that is present keeps its given value even when invalid, because
the trailing spread re-applies the input record. -/
theorem config_defaults_only_omitted (g : GEConfigInput) (s : SMConfigInput) :
    mkGEConfig g =
      ⟨g.boardWidth.getD 10, g.boardHeight.getD 20,
       g.initialFallSpeed.getD 1000, g.softDropSpeed.getD 50,
       g.lockDelay.getD 500⟩ ∧
    mkSMConfig s = ⟨s.linesPerLevel.getD 10, s.initialLevel.getD 1⟩ := by
  have key : ∀ (v : Option Int) (d : Int),
      jsSpreadField v (jsOrDefault v d) = v.getD d := by
    intro v d
    cases v <;> rfl
  constructor
  · unfold mkGEConfig
    simp only [key]
  · unfold mkSMConfig
    simp only [key]

lemma abs_jsRound_sub_le (q : ℚ) : |((jsRound q : Int) : ℚ) - q| ≤ 1 / 2 := by
  rw [abs_le]
  unfold jsRound
  constructor
  · have h := Int.lt_floor_add_one (q + 1 / 2)
    linarith
  · have h := Int.floor_le (q + 1 / 2)
    linarith

/-- C3 as stated is false: the source rounds the product to an integer
(`Math.round`) before clamping, so at level 5 with base 1000 ms it
returns 410 while `max(50, 1000 × 0.8^4)` is 409.6. -/
theorem calculateFallSpeed_counterexample :
    smLevel5.calculateFallSpeed 1000 = 410 ∧
    fallSpeedSpecClaim 5 1000 ≠ ((410 : Int) : ℚ) := by
  have hexp : ((5 : Int) - 1).toNat = 4 := rfl
  have hspec : fallSpeedSpecClaim 5 1000 = 2048 / 5 := by
    unfold fallSpeedSpecClaim
    rw [hexp, max_eq_right] <;> norm_num
  constructor
  · have hround : jsRound (1000 * (4 / 5 : ℚ) ^ (4 : Nat)) = 410 := by
      unfold jsRound
      rw [show (1000 * (4 / 5 : ℚ) ^ (4 : Nat) + 1 / 2) = 4101 / 10 by norm_num]
      rw [Int.floor_eq_iff] <;> norm_num
    show max (jsRound (1000 * (4 / 5 : ℚ) ^ ((smLevel5.level - 1).toNat))) 50 = 410
    rw [show (smLevel5.level - 1).toNat = 4 from rfl, hround]
    rfl
  · rw [hspec]
    norm_num

/-- C3 amended: for every level ≥ 1 and base speed,
`calculateFallSpeed` returns `max(50, round(base × 0.8^(level-1)))` —
the spec's value with the product rounded half-up to an integer before
the clamp — and therefore differs from
`max(50, base × 0.8^(level-1))` by at most 1/2 ms. -/
theorem calculateFallSpeed_rounds_spec (sm : SMState) (base : ℚ)
    (h : 1 ≤ sm.level) :
    sm.calculateFallSpeed base =
      max 50 (jsRound (base * (4 / 5) ^ (sm.level - 1).toNat)) ∧
    |((sm.calculateFallSpeed base : Int) : ℚ) -
        fallSpeedSpecClaim sm.level base| ≤ 1 / 2 := by
  constructor
  · unfold SMState.calculateFallSpeed
    rw [max_comm]
  · show |((max (jsRound (base * (4 / 5) ^ (sm.level - 1).toNat)) 50 : Int) : ℚ) -
        fallSpeedSpecClaim sm.level base| ≤ 1 / 2
    unfold fallSpeedSpecClaim
    rw [Int.cast_max, show (((50 : Int)) : ℚ) = 50 by norm_num,
      max_comm (50 : ℚ) (base * (4 / 5) ^ (sm.level - 1).toNat)]
    exact le_trans (abs_max_sub_max_le_abs _ _ _)
      (abs_jsRound_sub_le (base * (4 / 5) ^ (sm.level - 1).toNat))

/-- Witness for C3 amended at level 5, base 1000 ms. -/
theorem calculateFallSpeed_rounds_spec_witness :
    1 ≤ smLevel5.level ∧
    (smLevel5.calculateFallSpeed 1000 =
      max 50 (jsRound (1000 * (4 / 5) ^ (smLevel5.level - 1).toNat)) ∧
     |((smLevel5.calculateFallSpeed 1000 : Int) : ℚ) -
        fallSpeedSpecClaim smLevel5.level 1000| ≤ 1 / 2) :=
  ⟨by decide, calculateFallSpeed_rounds_spec smLevel5 1000 (by decide)⟩

/-- C4: from the playing status, `pause()` then `resume()` leaves score,
level, lines cleared, current piece, next piece, and the board identical,
and shifts the fall-timer reference forward by exactly the pause
duration. -/
theorem pause_resume_preserves_state (st : EngineState) (t1 t2 : Int)
    (h : st.status = .playing) :
    ((st.pause t1).resume t2).sm.score = st.sm.score ∧
    ((st.pause t1).resume t2).sm.level = st.sm.level ∧
    ((st.pause t1).resume t2).sm.linesCleared = st.sm.linesCleared ∧
    ((st.pause t1).resume t2).tm.current = st.tm.current ∧
    ((st.pause t1).resume t2).tm.next = st.tm.next ∧
    ((st.pause t1).resume t2).tm.board = st.tm.board ∧
    ((st.pause t1).resume t2).lastFallTime = st.lastFallTime + (t2 - t1) := by
  unfold EngineState.pause EngineState.resume
  rw [if_pos h]
  simp

/-- Witness for C4: a concrete playing engine paused at 200 ms and
resumed at 350 ms keeps its state and advances the fall reference by
exactly 150 ms. -/
theorem pause_resume_preserves_state_witness :
    ((engineDemo.pause 200).resume 350).sm.score = engineDemo.sm.score ∧
    ((engineDemo.pause 200).resume 350).sm.level = engineDemo.sm.level ∧
    ((engineDemo.pause 200).resume 350).sm.linesCleared =
      engineDemo.sm.linesCleared ∧
    ((engineDemo.pause 200).resume 350).tm.current = engineDemo.tm.current ∧
    ((engineDemo.pause 200).resume 350).tm.next = engineDemo.tm.next ∧
    ((engineDemo.pause 200).resume 350).tm.board = engineDemo.tm.board ∧
    ((engineDemo.pause 200).resume 350).lastFallTime =
      engineDemo.lastFallTime + (350 - 200) :=
  pause_resume_preserves_state engineDemo 200 350 rfl

/-- A T piece at the spawn anchor of a default board. -/
def tPieceDemo : Piece :=
  createTetromino .T 3 0 0

/-- A `TetrominoManager` holding `tPieceDemo` on an empty default board. -/
def tmDemoT : TMState :=
  { board := mkBoard 10 20, current := some tPieceDemo, next := none }

/-- C7: `rotatePiece()` computes the naive rotation (rotation state +1
mod 4) and then tries, in order, the naive candidate followed by each
wall-kick translate for this (kind, fromRotation, toRotation); it
commits the first candidate that is valid on the board and returns true,
and if none is valid it returns false with the piece unchanged. -/
theorem rotatePiece_commits_first_valid (tm : TMState) (p : Piece)
    (h : tm.current = some p) :
    (rotateTetromino p).rotation = (p.rotation + 1) % 4 ∧
    (∀ c,
      (rotateTetromino p ::
        (getWallKickOffsets p.type p.rotation (rotateTetromino p).rotation).map
          (fun off => moveTetromino (rotateTetromino p) off.1 off.2)).find?
        (fun cand => tm.board.isValidPosition cand) = some c →
      tm.rotatePiece = (true, { tm with current := some c })) ∧
    ((rotateTetromino p ::
        (getWallKickOffsets p.type p.rotation (rotateTetromino p).rotation).map
          (fun off => moveTetromino (rotateTetromino p) off.1 off.2)).find?
        (fun cand => tm.board.isValidPosition cand) = none →
      tm.rotatePiece = (false, tm)) := by
  have hEq : tm.rotatePiece =
      (if tm.board.isValidPosition (rotateTetromino p) then
        (true, { tm with current := some (rotateTetromino p) })
      else
        match (getWallKickOffsets p.type p.rotation
            (rotateTetromino p).rotation).find?
            (fun off => tm.board.isValidPosition
              (moveTetromino (rotateTetromino p) off.1 off.2)) with
        | some off => (true, { tm with current := some (moveTetromino (rotateTetromino p) off.1 off.2) })
        | none => (false, tm)) := by
    unfold TMState.rotatePiece Board.canRotate
    rw [h]
  refine ⟨rfl, ?_, ?_⟩
  · intro c hc
    rw [hEq]
    cases hv : tm.board.isValidPosition (rotateTetromino p) with
    | true =>
      rw [List.find?_cons_of_pos _ hv] at hc
      obtain rfl : rotateTetromino p = c := by injection hc
      rfl
    | false =>
      rw [List.find?_cons_of_neg _ (by simp [hv]), List.find?_map] at hc
      have hc' : Option.map
          (fun off => moveTetromino (rotateTetromino p) off.1 off.2)
          ((getWallKickOffsets p.type p.rotation
              (rotateTetromino p).rotation).find?
            (fun off => tm.board.isValidPosition
              (moveTetromino (rotateTetromino p) off.1 off.2))) = some c := hc
      simp only [Bool.false_eq_true, if_false]
      cases hfind : (getWallKickOffsets p.type p.rotation
          (rotateTetromino p).rotation).find?
          (fun off => tm.board.isValidPosition
            (moveTetromino (rotateTetromino p) off.1 off.2)) with
      | none =>
        rw [hfind] at hc'
        exact absurd hc' (by simp)
      | some off =>
        rw [hfind] at hc'
        obtain rfl : moveTetromino (rotateTetromino p) off.1 off.2 = c := by
          simpa using hc'
        rfl
  · intro hc
    rw [hEq]
    cases hv : tm.board.isValidPosition (rotateTetromino p) with
    | true =>
      rw [List.find?_cons_of_pos _ hv] at hc
      exact absurd hc (by simp)
    | false =>
      rw [List.find?_cons_of_neg _ (by simp [hv]), List.find?_map] at hc
      have hc' : Option.map
          (fun off => moveTetromino (rotateTetromino p) off.1 off.2)
          ((getWallKickOffsets p.type p.rotation
              (rotateTetromino p).rotation).find?
            (fun off => tm.board.isValidPosition
              (moveTetromino (rotateTetromino p) off.1 off.2))) = none := hc
      simp only [Bool.false_eq_true, if_false]
      cases hfind : (getWallKickOffsets p.type p.rotation
          (rotateTetromino p).rotation).find?
          (fun off => tm.board.isValidPosition
            (moveTetromino (rotateTetromino p) off.1 off.2)) with
      | none => rfl
      | some off =>
        rw [hfind] at hc'
        exact absurd hc' (by simp)

/-- Witness for C7: the T piece at the spawn anchor of an empty board
rotates with the naive candidate (the first in the candidate list). -/
theorem rotatePiece_commits_first_valid_witness :
    tmDemoT.rotatePiece =
      (true, { tmDemoT with current := some (rotateTetromino tPieceDemo) }) :=
  (rotatePiece_commits_first_valid tmDemoT tPieceDemo rfl).2.1
    (rotateTetromino tPieceDemo) (by decide)

/-- An O piece as a pending next piece. -/
def oPieceDemo : Piece :=
  createTetromino .O 0 0 0

/-- A `TetrominoManager` with no current piece and `oPieceDemo` pending,
on an empty default board. -/
def tmDemoSpawn : TMState :=
  { board := mkBoard 10 20, current := none, next := some oPieceDemo }

/-- C8: `spawnPiece()` promotes the existing next piece to current
(drawing a fresh kind from the sequencer only when no next piece
exists), places it at the fixed spawn anchor (horizontally centered, top
row), draws a new next piece unconditionally, and if the spawn position
is invalid on the board it clears the current piece and returns null. -/
theorem spawnPiece_promotes_next (tm : TMState) (s : BagState) :
    (∀ np, tm.next = some np →
      tm.spawnPiece s =
        ((if tm.board.isValidPosition { np with x := tm.spawnX, y := tm.spawnY } then some { np with x := tm.spawnX, y := tm.spawnY } else none),
         { tm with current := (if tm.board.isValidPosition { np with x := tm.spawnX, y := tm.spawnY } then some { np with x := tm.spawnX, y := tm.spawnY } else none),
                   next := some (createRandomTetromino s).1 },
         (createRandomTetromino s).2)) ∧
    (tm.next = none →
      tm.spawnPiece s =
        ((if tm.board.isValidPosition { (createRandomTetromino s).1 with x := tm.spawnX, y := tm.spawnY } then some { (createRandomTetromino s).1 with x := tm.spawnX, y := tm.spawnY } else none),
         { tm with current := (if tm.board.isValidPosition { (createRandomTetromino s).1 with x := tm.spawnX, y := tm.spawnY } then some { (createRandomTetromino s).1 with x := tm.spawnX, y := tm.spawnY } else none),
                   next := some (createRandomTetromino (createRandomTetromino s).2).1 },
         (createRandomTetromino (createRandomTetromino s).2).2)) ∧
    (∀ c, (tm.spawnPiece s).1 = some c →
      c.x = tm.spawnX ∧ c.y = 0 ∧ (tm.spawnPiece s).2.1.current = some c) := by
  have h1 : ∀ np, tm.next = some np →
      tm.spawnPiece s =
        ((if tm.board.isValidPosition { np with x := tm.spawnX, y := tm.spawnY } then some { np with x := tm.spawnX, y := tm.spawnY } else none),
         { tm with current := (if tm.board.isValidPosition { np with x := tm.spawnX, y := tm.spawnY } then some { np with x := tm.spawnX, y := tm.spawnY } else none),
                   next := some (createRandomTetromino s).1 },
         (createRandomTetromino s).2) := by
    intro np hnp
    rcases hdraw : createRandomTetromino s with ⟨nxt, s2⟩
    cases hval : tm.board.isValidPosition { np with x := tm.spawnX, y := tm.spawnY } <;>
      simp [TMState.spawnPiece, cloneTetromino, hnp, hdraw, hval]
  have h2 : tm.next = none →
      tm.spawnPiece s =
        ((if tm.board.isValidPosition { (createRandomTetromino s).1 with x := tm.spawnX, y := tm.spawnY } then some { (createRandomTetromino s).1 with x := tm.spawnX, y := tm.spawnY } else none),
         { tm with current := (if tm.board.isValidPosition { (createRandomTetromino s).1 with x := tm.spawnX, y := tm.spawnY } then some { (createRandomTetromino s).1 with x := tm.spawnX, y := tm.spawnY } else none),
                   next := some (createRandomTetromino (createRandomTetromino s).2).1 },
         (createRandomTetromino (createRandomTetromino s).2).2) := by
    intro hnone
    rcases hdraw : createRandomTetromino s with ⟨fresh, s1⟩
    rcases hdraw2 : createRandomTetromino s1 with ⟨nxt, s2⟩
    cases hval : tm.board.isValidPosition { fresh with x := tm.spawnX, y := tm.spawnY } <;>
      simp [TMState.spawnPiece, cloneTetromino, hnone, hdraw, hdraw2, hval]
  refine ⟨h1, h2, ?_⟩
  intro c hc
  cases hnext : tm.next with
  | some np =>
    rw [h1 np hnext] at hc
    cases hval : tm.board.isValidPosition { np with x := tm.spawnX, y := tm.spawnY } with
    | false =>
      rw [hval] at hc
      simp at hc
    | true =>
      rw [hval] at hc
      obtain rfl : ({ np with x := tm.spawnX, y := tm.spawnY } : Piece) = c := by
        simpa using hc
      refine ⟨rfl, rfl, ?_⟩
      rw [h1 np hnext, hval]
      simp
  | none =>
    rw [h2 hnext] at hc
    cases hval : tm.board.isValidPosition { (createRandomTetromino s).1 with x := tm.spawnX, y := tm.spawnY } with
    | false =>
      rw [hval] at hc
      simp at hc
    | true =>
      rw [hval] at hc
      obtain rfl : ({ (createRandomTetromino s).1 with x := tm.spawnX, y := tm.spawnY } : Piece) = c := by
        simpa using hc
      refine ⟨rfl, rfl, ?_⟩
      rw [h2 hnext, hval]
      simp

/-- Witness for C8: with an O piece pending on an empty board, the spawn
promotes it to the anchor (3, 0) and draws the next piece from the bag. -/
theorem spawnPiece_promotes_next_witness :
    tmDemoSpawn.spawnPiece ⟨[.J], []⟩ =
      (some (createTetromino .O 3 0 0),
       { tmDemoSpawn with current := some (createTetromino .O 3 0 0),
                          next := some (createTetromino .J 0 0 0) },
       ⟨[], []⟩) := by
  have h := (spawnPiece_promotes_next tmDemoSpawn ⟨[.J], []⟩).1 oPieceDemo rfl
  rw [h]
  decide

/-- A row with every cell occupied — the spec's notion of a complete
row, directly on the row list. -/
def rowFull (row : List (Option Cell)) : Bool :=
  row.all fun c => !c.isNone

lemma map_getD_range (l : List α) (d : α) :
    (List.range l.length).map (fun i => l.getD i d) = l := by
  induction l with
  | nil => rfl
  | cons a t ih =>
    rw [List.length_cons, List.range_succ_eq_map, List.map_cons, List.map_map]
    exact congrArg (a :: ·) ih

lemma all_map_general (f : α → β) (p : β → Bool) (l : List α) :
    (l.map f).all p = l.all fun a => p (f a) := by
  induction l with
  | nil => rfl
  | cons a t ih => simp [ih]

lemma all_getD_range (l : List α) (d : α) (p : α → Bool) :
    ((List.range l.length).all fun i => p (l.getD i d)) = l.all p := by
  conv_rhs => rw [← map_getD_range l d]
  rw [all_map_general]

lemma filterMap_if_eq_filter (p : α → Bool) (l : List α) :
    (l.filterMap fun a => if p a then none else some a) =
      l.filter fun a => !p a := by
  induction l with
  | nil => rfl
  | cons a t ih =>
    cases h : p a <;> simp [List.filterMap_cons, List.filter_cons, h, ih]

lemma filterMap_range_getD (l : List α) (d : α) (p : α → Bool) :
    ((List.range l.length).filterMap fun i =>
        if p (l.getD i d) then none else some (l.getD i d)) =
      l.filter fun a => !p a := by
  have h := List.filterMap_map (fun i => l.getD i d)
    (fun a => if p a then none else some a) (List.range l.length)
  rw [map_getD_range] at h
  have h2 : ((List.range l.length).filterMap fun i =>
      if p (l.getD i d) then none else some (l.getD i d)) =
      l.filterMap fun a => if p a then none else some a := h.symm
  rw [h2, filterMap_if_eq_filter]

lemma length_filter_range_getD (l : List α) (d : α) (p : α → Bool) :
    ((List.range l.length).filter fun i => p (l.getD i d)).length =
      (l.filter p).length := by
  have h := List.filter_map (fun i => l.getD i d) (List.range l.length) (p := p)
  rw [map_getD_range] at h
  have h2 : List.filter p l =
      ((List.range l.length).filter fun i => p (l.getD i d)).map
        (fun i => l.getD i d) := h
  rw [h2, List.length_map]

lemma length_filter_add_length_filter_not (p : α → Bool) (l : List α) :
    (l.filter p).length + (l.filter fun a => !p a).length = l.length := by
  induction l with
  | nil => rfl
  | cons a t ih =>
    cases h : p a <;> simp [List.filter_cons, h] <;> omega

lemma isRowComplete_eq_rowFull (b : Board) (i : Nat)
    (hi : i < b.height)
    (hlen : b.grid.length = b.height)
    (hwidth : ∀ r ∈ b.grid, r.length = b.width) :
    b.isRowComplete i = rowFull (b.grid.getD i []) := by
  have hrowmem : b.grid.getD i [] ∈ b.grid := by
    rw [List.getD_eq_getElem _ _ (show i < b.grid.length by omega)]
    exact List.getElem_mem _
  have hrw : (b.grid.getD i []).length = b.width := hwidth _ hrowmem
  unfold Board.isRowComplete rowFull
  rw [if_neg (by omega), ← hrw]
  exact all_getD_range (b.grid.getD i []) none fun c => !c.isNone

lemma contains_range_filter (q : Nat → Bool) (n i : Nat) (hi : i < n) :
    ((List.range n).filter q).contains i = q i := by
  cases hq : q i with
  | true =>
    exact List.elem_iff.mpr (List.mem_filter.mpr ⟨List.mem_range.mpr hi, hq⟩)
  | false =>
    rw [Bool.eq_false_iff]
    intro h
    rcases List.mem_filter.mp (List.elem_iff.mp h) with ⟨-, hqi⟩
    rw [hq] at hqi
    exact Bool.false_ne_true hqi

/-- C5: `clearLines()` removes, in one batch, exactly the rows in which
every cell is occupied; the remaining rows keep their relative order
below that many freshly prepended empty rows; the returned record
carries the count and the original pre-clear indices of the removed
rows; the row count of the board is preserved; and a board whose rows
are all complete becomes a fully empty board. -/
theorem clearLines_spec (b : Board)
    (hlen : b.grid.length = b.height)
    (hwidth : ∀ r ∈ b.grid, r.length = b.width) :
    b.clearLines.1.grid =
      List.replicate b.clearLines.2.1 (emptyRow b.width) ++
        (b.grid.filter fun r => !rowFull r) ∧
    b.clearLines.2.1 = (b.grid.filter rowFull).length ∧
    b.clearLines.2.2 =
      ((List.range b.height).filter fun i => rowFull (b.grid.getD i [])) ∧
    b.clearLines.1.grid.length = b.height ∧
    (b.grid.all rowFull = true →
      b.clearLines.1.grid = initializeBoard b.width b.height) := by
  have hcongr : ∀ i ∈ List.range b.height,
      b.isRowComplete i = rowFull (b.grid.getD i []) := by
    intro i hi
    exact isRowComplete_eq_rowFull b i (List.mem_range.mp hi) hlen hwidth
  have hrows : b.findCompleteRows =
      ((List.range b.height).filter fun i => rowFull (b.grid.getD i [])) := by
    unfold Board.findCompleteRows
    exact List.filter_congr hcongr
  have hcount : b.findCompleteRows.length = (b.grid.filter rowFull).length := by
    rw [hrows, ← hlen]
    exact length_filter_range_getD b.grid [] fun r => rowFull r
  have hnew : ((List.range b.height).filterMap fun row =>
      if b.findCompleteRows.contains row then none
      else some (b.grid.getD row [])) =
      b.grid.filter fun r => !rowFull r := by
    have hstep : ((List.range b.height).filterMap fun row =>
        if b.findCompleteRows.contains row then none
        else some (b.grid.getD row [])) =
        ((List.range b.height).filterMap fun row =>
        if rowFull (b.grid.getD row []) then none
        else some (b.grid.getD row [])) := by
      apply List.filterMap_congr
      intro i hi
      rw [hrows, contains_range_filter _ _ _ (List.mem_range.mp hi)]
    rw [hstep, ← hlen]
    exact filterMap_range_getD b.grid [] fun r => rowFull r
  by_cases hempty : b.findCompleteRows.isEmpty
  · have hnil : b.findCompleteRows = [] := List.isEmpty_iff.mp hempty
    have hclear : b.clearLines = (b, 0, []) := by
      unfold Board.clearLines
      rw [hnil]
      rfl
    have hb1 : b.clearLines.1 = b := by rw [hclear]
    have hb2 : b.clearLines.2.1 = 0 := by rw [hclear]
    have hb3 : b.clearLines.2.2 = ([] : List Nat) := by rw [hclear]
    have hnofull : ∀ r ∈ b.grid, rowFull r = false := by
      intro r hr
      rcases List.mem_iff_getElem.mp hr with ⟨i, hilt, hget⟩
      have hgetD : b.grid.getD i [] = r := by
        rw [List.getD_eq_getElem _ _ hilt, hget]
      have hic : b.isRowComplete i = false := by
        have hmemiff : i ∈ b.findCompleteRows ↔ b.isRowComplete i = true := by
          unfold Board.findCompleteRows
          rw [List.mem_filter]
          simp [List.mem_range, show i < b.height from by omega]
        rw [hnil] at hmemiff
        simp only [List.not_mem_nil] at hmemiff
        cases hic : b.isRowComplete i with
        | false => rfl
        | true => exact absurd (hmemiff.mpr hic) (by simp)
      rw [← hgetD, ← isRowComplete_eq_rowFull b i (by omega) hlen hwidth, hic]
    have hfilterself : (b.grid.filter fun r => !rowFull r) = b.grid := by
      apply List.filter_eq_self.mpr
      intro r hr
      rw [hnofull r hr]
      rfl
    have hfilternil : (b.grid.filter rowFull).length = 0 := by
      rw [List.length_eq_zero, List.filter_eq_nil_iff]
      intro r hr
      rw [hnofull r hr]
      simp
    refine ⟨?_, ?_, ?_, ?_, ?_⟩
    · rw [hb1, hb2, hfilterself]
      rfl
    · rw [hb2, hfilternil]
    · rw [hb3, ← hrows, hnil]
    · rw [hb1, hlen]
    · intro hall
      have hgridnil : b.grid = [] := by
        cases hgrid : b.grid with
        | nil => rfl
        | cons r t =>
          have hr : rowFull r = true :=
            List.all_eq_true.mp hall r (by rw [hgrid]; exact List.mem_cons_self r t)
          have hf := hnofull r (by rw [hgrid]; exact List.mem_cons_self r t)
          rw [hr] at hf
          exact absurd hf (by simp)
      have hh : b.height = 0 := by
        rw [← hlen, hgridnil]
        rfl
      rw [hb1, hgridnil, hh]
      rfl
  · have hfalse : b.findCompleteRows.isEmpty = false := Bool.eq_false_iff.mpr hempty
    have hclear : b.clearLines =
        ({ b with grid :=
            List.replicate b.findCompleteRows.length (emptyRow b.width) ++
              (List.range b.height).filterMap fun row =>
                if b.findCompleteRows.contains row then none
                else some (b.grid.getD row []) },
         b.findCompleteRows.length, b.findCompleteRows) := by
      simp only [Board.clearLines, hfalse, Bool.false_eq_true, if_false]
    have hb1 : b.clearLines.1.grid =
        List.replicate b.findCompleteRows.length (emptyRow b.width) ++
          (List.range b.height).filterMap fun row =>
            if b.findCompleteRows.contains row then none
            else some (b.grid.getD row []) := by
      rw [hclear]
    have hb2 : b.clearLines.2.1 = b.findCompleteRows.length := by rw [hclear]
    have hb3 : b.clearLines.2.2 = b.findCompleteRows := by rw [hclear]
    refine ⟨?_, ?_, ?_, ?_, ?_⟩
    · rw [hb1, hb2, hnew]
    · rw [hb2, hcount]
    · rw [hb3, hrows]
    · rw [hb1, List.length_append, List.length_replicate, hnew, hcount,
        length_filter_add_length_filter_not, hlen]
    · intro hall
      have hfilternil : (b.grid.filter fun r => !rowFull r) = [] := by
        rw [List.filter_eq_nil_iff]
        intro r hr
        rw [List.all_eq_true.mp hall r hr]
        simp
      have hfull : (b.grid.filter rowFull) = b.grid :=
        List.filter_eq_self.mpr (List.all_eq_true.mp hall)
      rw [hb1, hnew, hfilternil, hcount, hfull, hlen]
      unfold initializeBoard
      rw [List.append_nil]

/-- A 4-wide, 3-high board whose bottom two rows are complete. -/
def boardDemo : Board :=
  { width := 4, height := 3,
    grid := [[some ⟨.I, "#00F5FF"⟩, none, none, none],
             List.replicate 4 (some ⟨.T, "#9932CC"⟩),
             List.replicate 4 (some ⟨.Z, "#FF4500"⟩)] }

/-- Witness for C5 on `boardDemo`: both complete rows are removed, two
empty rows are prepended, and the record reports count 2 with the
original indices. -/
theorem clearLines_spec_witness :
    boardDemo.clearLines.1.grid =
      List.replicate boardDemo.clearLines.2.1 (emptyRow boardDemo.width) ++
        (boardDemo.grid.filter fun r => !rowFull r) ∧
    boardDemo.clearLines.2.1 = (boardDemo.grid.filter rowFull).length ∧
    boardDemo.clearLines.2.2 =
      ((List.range boardDemo.height).filter fun i =>
        rowFull (boardDemo.grid.getD i [])) ∧
    boardDemo.clearLines.1.grid.length = boardDemo.height ∧
    (boardDemo.grid.all rowFull = true →
      boardDemo.clearLines.1.grid =
        initializeBoard boardDemo.width boardDemo.height) :=
  clearLines_spec boardDemo (by decide) (by decide)

lemma get_cons_set_perm (t : List α) :
    ∀ (m : Nat) (hm : m < t.length) (a : α),
      List.Perm (t.get ⟨m, hm⟩ :: t.set m a) (a :: t) := by
  induction t with
  | nil => intro m hm; exact absurd hm (by simp)
  | cons b s ih =>
    intro m hm a
    cases m with
    | zero => exact List.Perm.swap a b s
    | succ k =>
      have hk : k < s.length := by
        simp only [List.length_cons] at hm
        omega
      show List.Perm (s.get ⟨k, hk⟩ :: b :: s.set k a) (a :: b :: s)
      have h1 : List.Perm (s.get ⟨k, hk⟩ :: b :: s.set k a)
          (b :: s.get ⟨k, hk⟩ :: s.set k a) := List.Perm.swap b _ _
      have h2 : List.Perm (b :: s.get ⟨k, hk⟩ :: s.set k a) (b :: (a :: s)) :=
        List.Perm.cons b (ih k hk a)
      have h3 : List.Perm (b :: a :: s) (a :: b :: s) := List.Perm.swap a b s
      exact (h1.trans h2).trans h3

lemma set_set_perm (l : List α) :
    ∀ (i j : Nat) (hi : i < l.length) (hj : j < l.length),
      List.Perm ((l.set i (l.get ⟨j, hj⟩)).set j (l.get ⟨i, hi⟩)) l := by
  induction l with
  | nil => intro i j hi; exact absurd hi (by simp)
  | cons a t ih =>
    intro i j hi hj
    cases i with
    | zero =>
      cases j with
      | zero => simp
      | succ m =>
        have hm : m < t.length := by
          simp only [List.length_cons] at hj
          omega
        show List.Perm (t.get ⟨m, hm⟩ :: t.set m a) (a :: t)
        exact get_cons_set_perm t m hm a
    | succ k =>
      cases j with
      | zero =>
        have hk : k < t.length := by
          simp only [List.length_cons] at hi
          omega
        show List.Perm (t.get ⟨k, hk⟩ :: t.set k a) (a :: t)
        exact get_cons_set_perm t k hk a
      | succ m =>
        have hk : k < t.length := by
          simp only [List.length_cons] at hi
          omega
        have hm : m < t.length := by
          simp only [List.length_cons] at hj
          omega
        show List.Perm (a :: (t.set k (t.get ⟨m, hm⟩)).set m (t.get ⟨k, hk⟩)) (a :: t)
        exact List.Perm.cons a (ih k m hk hm)

lemma swapList_perm (l : List TetType) (i j : Nat)
    (hi : i < l.length) (hj : j < l.length) : List.Perm (swapList l i j) l := by
  unfold swapList
  rw [List.getD_eq_getElem l .I hi, List.getD_eq_getElem l .I hj]
  exact set_set_perm l i j hi hj

lemma fisherYatesAux_perm :
    ∀ (i : Nat) (l : List TetType) (rs : List Nat), i < l.length →
      List.Perm (fisherYatesAux l i rs) l := by
  intro i
  induction i with
  | zero => intro l rs h; exact List.Perm.refl l
  | succ k ih =>
    intro l rs h
    have hj : rs.headD 0 % (k + 2) < l.length := by
      have hmod := Nat.mod_lt (rs.headD 0) (show 0 < k + 2 by omega)
      omega
    have hswap : List.Perm (swapList l (k + 1) (rs.headD 0 % (k + 2))) l :=
      swapList_perm l (k + 1) (rs.headD 0 % (k + 2)) h hj
    have hlen : (swapList l (k + 1) (rs.headD 0 % (k + 2))).length = l.length :=
      hswap.length_eq
    show List.Perm
      (fisherYatesAux (swapList l (k + 1) (rs.headD 0 % (k + 2))) k rs.tail) l
    exact List.Perm.trans (ih _ rs.tail (by omega)) hswap

lemma generatePieceBag_perm (rs : List Nat) :
    List.Perm (generatePieceBag rs) allTetrominoTypes :=
  fisherYatesAux_perm 6 allTetrominoTypes rs (by decide)

lemma drawTypes_pop :
    ∀ (n : Nat) (bag : List TetType) (rs : List Nat), bag.length = n →
      drawTypes n ⟨bag, rs⟩ = (bag.reverse, ⟨[], rs⟩) := by
  intro n
  induction n with
  | zero =>
    intro bag rs hlen
    rw [List.length_eq_zero.mp hlen]
    rfl
  | succ k ih =>
    intro bag rs hlen
    rcases List.eq_nil_or_concat bag with hnil | ⟨ys, a, hcat⟩
    · rw [hnil] at hlen
      exact absurd hlen (by simp)
    · rw [List.concat_eq_append] at hcat
      subst hcat
      have hne : (ys ++ [a]).isEmpty = false := by cases ys <;> rfl
      have hylen : ys.length = k := by
        rw [List.length_append] at hlen
        simp at hlen
        omega
      have hdraw : getRandomTetrominoType ⟨ys ++ [a], rs⟩ = (a, ⟨ys, rs⟩) := by
        unfold getRandomTetrominoType
        rw [hne]
        simp only [Bool.false_eq_true, if_false]
        rw [List.getLastD_concat, List.dropLast_concat]
      show (let (t, s') := getRandomTetrominoType ⟨ys ++ [a], rs⟩
            let (ts, s'') := drawTypes k s'
            (t :: ts, s'')) = ((ys ++ [a]).reverse, ⟨[], rs⟩)
      rw [hdraw]
      show (a :: (drawTypes k (⟨ys, rs⟩ : BagState)).1,
            (drawTypes k (⟨ys, rs⟩ : BagState)).2) = ((ys ++ [a]).reverse, ⟨[], rs⟩)
      rw [ih ys rs hylen, List.reverse_append]
      rfl

/-- C6: from any bag boundary (empty pending bag) and any random stream,
the next 7 sequencer draws contain each of the 7 piece kinds exactly
once and leave the pending bag empty again, and `resetPieceBag()` leaves
the pending bag empty. -/
theorem seven_bag_draws_each_kind_once (rs : List Nat) (s : BagState) :
    (∀ t : TetType, (drawTypes 7 ⟨[], rs⟩).1.count t = 1) ∧
    (drawTypes 7 ⟨[], rs⟩).2.bag = [] ∧
    (resetPieceBag s).bag = [] := by
  have hbag : List.Perm (generatePieceBag rs) allTetrominoTypes :=
    generatePieceBag_perm rs
  have hlen : (generatePieceBag rs).length = 7 := by
    rw [hbag.length_eq]
    rfl
  rcases List.eq_nil_or_concat (generatePieceBag rs) with hnil | ⟨ys, a, hcat⟩
  · rw [hnil] at hlen
    exact absurd hlen (by simp)
  · rw [List.concat_eq_append] at hcat
    have hylen : ys.length = 6 := by
      rw [hcat, List.length_append] at hlen
      simp at hlen
      omega
    have hfirst : getRandomTetrominoType ⟨[], rs⟩ = (a, ⟨ys, rs.drop 6⟩) := by
      show ((generatePieceBag rs).getLastD .I,
            (⟨(generatePieceBag rs).dropLast, rs.drop 6⟩ : BagState)) = _
      rw [hcat, List.getLastD_concat, List.dropLast_concat]
    have hseven : drawTypes 7 ⟨[], rs⟩ =
        ((generatePieceBag rs).reverse, ⟨[], rs.drop 6⟩) := by
      show (let (t, s') := getRandomTetrominoType ⟨[], rs⟩
            let (ts, s'') := drawTypes 6 s'
            (t :: ts, s'')) = _
      rw [hfirst]
      show (a :: (drawTypes 6 (⟨ys, rs.drop 6⟩ : BagState)).1,
            (drawTypes 6 (⟨ys, rs.drop 6⟩ : BagState)).2) = _
      rw [drawTypes_pop 6 ys (rs.drop 6) hylen, hcat, List.reverse_append]
      rfl
    refine ⟨?_, ?_, rfl⟩
    · intro t
      rw [hseven]
      have hperm : List.Perm (generatePieceBag rs).reverse allTetrominoTypes :=
        List.Perm.trans (List.reverse_perm _) hbag
      rw [hperm.count_eq]
      cases t <;> decide
    · rw [hseven]

/-- A default board with one occupied cell at column 4, row 3 — right
below the cells an O piece occupies after spawning. -/
def boardSpawnBlock : Board :=
  { width := 10, height := 20,
    grid := (initializeBoard 10 20).set 3
      ((emptyRow 10).set 4 (some ⟨.I, "#00F5FF"⟩)) }

/-- A playing engine with no current piece, an O piece pending, an
expired fall timer and `boardSpawnBlock` as board. -/
def engineSpawnLock : EngineState :=
  { config := ⟨10, 20, 1000, 50, 500⟩,
    tm := { board := boardSpawnBlock, current := none,
            next := some (createTetromino .O 0 0 0) },
    sm := smDemo, status := .playing, fallSpeed := 1000,
    lastFallTime := 0, lastUpdateTime := 0, lockTimer := 0,
    isLockDelayActive := false, isSoftDropping := false, pauseTime := 0,
    isRunning := true, seq := ⟨[.I], []⟩ }

/-- A playing engine with no current piece and an L piece pending on an
empty board. -/
def engineSpawnDemo : EngineState :=
  { config := ⟨10, 20, 1000, 50, 500⟩,
    tm := { board := mkBoard 10 20, current := none,
            next := some (createTetromino .L 0 0 0) },
    sm := smDemo, status := .playing, fallSpeed := 1000,
    lastFallTime := 0, lastUpdateTime := 0, lockTimer := 0,
    isLockDelayActive := false, isSoftDropping := false, pauseTime := 0,
    isRunning := true, seq := ⟨[.S], []⟩ }

lemma spawnPiece_result_fields (tm : TMState) (s : BagState) (c : Piece)
    (tm' : TMState) (s' : BagState)
    (h : tm.spawnPiece s = (some c, tm', s')) :
    tm'.current = some c ∧ tm'.board = tm.board := by
  rcases hd1 : createRandomTetromino s with ⟨p1, s1⟩
  rcases hd2 : createRandomTetromino s1 with ⟨p2, s2⟩
  cases hnext : tm.next with
  | some np =>
    cases hval : tm.board.isValidPosition
        { np with x := tm.spawnX, y := tm.spawnY } with
    | false =>
      simp only [TMState.spawnPiece, cloneTetromino, hnext, hd1, hd2, hval,
        Bool.not_true, Bool.not_false, Bool.false_eq_true, Bool.true_eq_false,
        if_false, if_true, Prod.mk.injEq] at h
      exact absurd h.1 (by simp)
    | true =>
      simp only [TMState.spawnPiece, cloneTetromino, hnext, hd1, hd2, hval,
        Bool.not_true, Bool.not_false, Bool.false_eq_true, Bool.true_eq_false,
        if_false, if_true, Prod.mk.injEq] at h
      obtain ⟨h1, h2, h3⟩ := h
      rw [← h2, h1]
      exact ⟨rfl, rfl⟩
  | none =>
    cases hval : tm.board.isValidPosition
        { p1 with x := tm.spawnX, y := tm.spawnY } with
    | false =>
      simp only [TMState.spawnPiece, cloneTetromino, hnext, hd1, hd2, hval,
        Bool.not_true, Bool.not_false, Bool.false_eq_true, Bool.true_eq_false,
        if_false, if_true, Prod.mk.injEq] at h
      exact absurd h.1 (by simp)
    | true =>
      simp only [TMState.spawnPiece, cloneTetromino, hnext, hd1, hd2, hval,
        Bool.not_true, Bool.not_false, Bool.false_eq_true, Bool.true_eq_false,
        if_false, if_true, Prod.mk.injEq] at h
      obtain ⟨h1, h2, h3⟩ := h
      rw [← h2, h1]
      exact ⟨rfl, rfl⟩

lemma tryMovePieceDown_fields (st : EngineState) (h0 : st.lockTimer = 0) :
    st.tryMovePieceDown.tm.board = st.tm.board ∧
    st.tryMovePieceDown.tm.current.isSome = st.tm.current.isSome ∧
    st.tryMovePieceDown.lockTimer = 0 ∧
    st.tryMovePieceDown.status = st.status ∧
    st.tryMovePieceDown.config = st.config := by
  unfold EngineState.tryMovePieceDown TMState.hasActivePiece TMState.moveDown
  cases hcur : st.tm.current with
  | none => simp [hcur, h0]
  | some p =>
    cases hmv : st.tm.board.canMove p 0 1 <;>
      cases hld : st.isLockDelayActive <;>
        simp [hcur, hmv, hld, h0, moveTetromino]

lemma updateFalling_no_lock_fields (st : EngineState) (now : Int)
    (h0 : st.lockTimer = 0) :
    (st.updateFalling now).tm.board = st.tm.board ∧
    (st.updateFalling now).tm.current.isSome = st.tm.current.isSome ∧
    (st.updateFalling now).lockTimer = 0 ∧
    (st.updateFalling now).status = st.status ∧
    (st.updateFalling now).config = st.config := by
  have hling : st.updateFalling now =
      (if now - st.lastFallTime ≥
          (if st.isSoftDropping then st.config.softDropSpeed else st.fallSpeed)
        then { st.tryMovePieceDown with lastFallTime := now }
        else st) := rfl
  rw [hling]
  by_cases hfall : now - st.lastFallTime ≥
      (if st.isSoftDropping then st.config.softDropSpeed else st.fallSpeed)
  · rw [if_pos hfall]
    have h := tryMovePieceDown_fields st h0
    exact ⟨h.1, h.2.1, h.2.2.1, h.2.2.2.1, h.2.2.2.2⟩
  · rw [if_neg hfall]
    exact ⟨rfl, rfl, h0, rfl, rfl⟩

lemma updateLockDelay_no_lock (st : EngineState) (dt : Int)
    (h0 : st.lockTimer = 0) (hdt : dt < st.config.lockDelay) :
    (st.updateLockDelay dt).tm = st.tm := by
  have hform : st.updateLockDelay dt =
      (if (st.isLockDelayActive && decide (st.status = GStatus.playing)) = true then
        (if st.lockTimer + dt ≥ st.config.lockDelay then
          ({ st with lockTimer := st.lockTimer + dt } : EngineState).lockCurrentPiece
        else { st with lockTimer := st.lockTimer + dt })
      else st) := rfl
  rw [hform]
  by_cases hcond : (st.isLockDelayActive && decide (st.status = GStatus.playing)) = true
  · rw [if_pos hcond, if_neg (by omega)]
  · rw [if_neg hcond]

lemma update_spawn_branch (st : EngineState) (deltaTime now : Int)
    (hplay : st.status = .playing) (hact : st.tm.hasActivePiece = false) :
    st.update deltaTime now =
      (match (st.tm.spawnPiece st.seq).1 with
       | none => ({ st with tm := (st.tm.spawnPiece st.seq).2.1, seq := (st.tm.spawnPiece st.seq).2.2 } : EngineState).gameOverOp
       | some _ =>
         if ({ st with tm := (st.tm.spawnPiece st.seq).2.1, seq := (st.tm.spawnPiece st.seq).2.2 } : EngineState).checkGameOverConditions then
           ({ st with tm := (st.tm.spawnPiece st.seq).2.1, seq := (st.tm.spawnPiece st.seq).2.2 } : EngineState).gameOverOp
         else
           (({ st with tm := (st.tm.spawnPiece st.seq).2.1, seq := (st.tm.spawnPiece st.seq).2.2, isLockDelayActive := false, lockTimer := 0 } : EngineState).updateFalling now).updateLockDelay deltaTime) := by
  unfold EngineState.update
  rw [if_neg (show ¬st.status ≠ GStatus.playing by rw [hplay]; simp), hact]
  rfl

/-- C2 as stated is false: with `deltaTime` at least the lock delay, a
piece spawned during the `update` call can be locked onto the board in
that same call. Concretely, from a playing engine with no current piece,
an O piece pending, an expired fall timer, and a blocked cell right
under the spawn position, `update(500)` (the configured lock delay)
spawns the O piece, fails to fall, arms the lock delay, accumulates the
full 500 ms and locks it: afterwards the board holds the O piece's cells
and the current piece is cleared. -/
theorem update_spawned_piece_locks_same_call :
    engineSpawnLock.tm.current = none ∧
    (engineSpawnLock.update 500 1000).tm.current = none ∧
    (engineSpawnLock.update 500 1000).tm.board.cellAt 4 1 =
      some ⟨.O, "#FFD700"⟩ ∧
    (engineSpawnLock.update 500 1000).tm.board.cellAt 4 2 =
      some ⟨.O, "#FFD700"⟩ := by
  decide

/-- C2 amended: within one `update` call in the playing status the
spawn-check, falling and lock-delay steps run in that fixed order, and a
piece spawned during the call is never locked onto the board in the same
call provided `deltaTime` is below the configured lock delay (the lock
timer restarts from 0 for the fresh piece); with `deltaTime ≥ lockDelay`
the freshly spawned piece can lock in the same call. -/
theorem update_spawned_piece_not_locked (st : EngineState)
    (deltaTime now : Int) (c : Piece) (tm2 : TMState) (seq2 : BagState)
    (hplay : st.status = .playing)
    (hnone : st.tm.current = none)
    (hspawn : st.tm.spawnPiece st.seq = (some c, tm2, seq2))
    (hnogo : ({ st with tm := tm2, seq := seq2 } : EngineState).checkGameOverConditions = false)
    (hdelta : deltaTime < st.config.lockDelay) :
    (st.update deltaTime now).tm.current ≠ none ∧
    (st.update deltaTime now).tm.board = st.tm.board := by
  obtain ⟨hc2, hb2⟩ := spawnPiece_result_fields st.tm st.seq c tm2 seq2 hspawn
  have hact : st.tm.hasActivePiece = false := by
    unfold TMState.hasActivePiece
    rw [hnone]
    rfl
  rw [update_spawn_branch st deltaTime now hplay hact, hspawn]
  show (if ({ st with tm := tm2, seq := seq2 } : EngineState).checkGameOverConditions = true then
          ({ st with tm := tm2, seq := seq2 } : EngineState).gameOverOp
        else
          (({ st with tm := tm2, seq := seq2, isLockDelayActive := false, lockTimer := 0 } : EngineState).updateFalling now).updateLockDelay deltaTime).tm.current ≠ none ∧
       (if ({ st with tm := tm2, seq := seq2 } : EngineState).checkGameOverConditions = true then
          ({ st with tm := tm2, seq := seq2 } : EngineState).gameOverOp
        else
          (({ st with tm := tm2, seq := seq2, isLockDelayActive := false, lockTimer := 0 } : EngineState).updateFalling now).updateLockDelay deltaTime).tm.board = st.tm.board
  rw [hnogo]
  simp only [Bool.false_eq_true, if_false]
  have h0A : ({ st with tm := tm2, seq := seq2, isLockDelayActive := false, lockTimer := 0 } : EngineState).lockTimer = 0 := rfl
  have hF := updateFalling_no_lock_fields { st with tm := tm2, seq := seq2, isLockDelayActive := false, lockTimer := 0 } now h0A
  have hLD := updateLockDelay_no_lock (({ st with tm := tm2, seq := seq2, isLockDelayActive := false, lockTimer := 0 } : EngineState).updateFalling now) deltaTime hF.2.2.1 (by rw [hF.2.2.2.2]; exact hdelta)
  constructor
  · rw [hLD]
    apply Option.ne_none_iff_isSome.mpr
    rw [hF.2.1]
    show tm2.current.isSome = true
    rw [hc2]
    rfl
  · rw [hLD, hF.1]
    exact hb2

/-- Witness for C2 amended: with `deltaTime` 100 ms (below the 500 ms
lock delay) the piece spawned during the call survives it and the board
is untouched. -/
theorem update_spawned_piece_not_locked_witness :
    (engineSpawnDemo.update 100 0).tm.current ≠ none ∧
    (engineSpawnDemo.update 100 0).tm.board = engineSpawnDemo.tm.board :=
  update_spawned_piece_not_locked engineSpawnDemo 100 0
    (createTetromino .L 3 0 0)
    { board := mkBoard 10 20,
      current := some (createTetromino .L 3 0 0),
      next := some (createTetromino .S 0 0 0) }
    ⟨[], []⟩ rfl rfl (by decide) (by decide) (by decide)

end Tetris
